import Mathlib

/-!
Verification development for the booking widget repository.

The embedded code comes from two source files:
* `frontend/lib/api.ts` — the HTTP client (`getSlots`, `bookSlot`).
* `frontend/app/page.tsx` — the page component: the availability index
  (`datesWithAvailableSlots`), the per-date slot filter (`filteredSlots`) and
  the booking submission handler (`handleBookSubmit`).

Modelling conventions:
* A UTC instant (the ISO string `datetime_utc`, parsed by `new Date(...)`)
  is represented by its epoch value in milliseconds, as an `Int`.  Parsing a
  valid ISO-8601 UTC string is a bijection onto epoch milliseconds, so keeping
  the integer loses nothing the claims need.
* A timezone is represented by its offset rule: the function that, for a UTC
  instant, yields the zone's UTC offset in milliseconds at that instant
  (IANA rules, including daylight-saving transitions, are functions of the
  instant, which is exactly what `date-fns-tz` evaluates).
* `toZonedTime(d, tz)` of `date-fns-tz` returns a shifted `Date` whose
  calendar fields, read in the runtime's own zone, equal the wall clock of
  `d` in `tz`; with the runtime zone taken as UTC (the standard reference
  configuration) the shifted epoch value is `t + offset(t)`, and the
  `format(zoned, 'yyyy-MM-dd')` / `isSameDay` calls read the calendar day of
  that shifted value.  The calendar day of an epoch value is its floor
  division by 86 400 000; the `yyyy-MM-dd` string is a bijective rendering of
  that day number, so civil dates are represented by epoch day numbers.
* An unknown zone identifier makes the `Intl`-backed zone lookup inside
  `toZonedTime` throw a `RangeError`; the thrown error is modelled as the
  `Except.error` branch.  The page code contains no handler for it.
-/

/-- `Slot` from `frontend/lib/api.ts`: `id`, `datetime_utc` (UTC instant, as
epoch milliseconds — see the file header), `is_booked`. -/
structure Slot where
  id : String
  datetime_utc : Int
  is_booked : Bool
  deriving DecidableEq, Repr

/-- A timezone, given by its IANA offset rule: the UTC offset (milliseconds)
the zone applies at a given UTC instant.  Daylight-saving zones are exactly
those whose offset function is not constant. -/
structure Timezone where
  offset : Int → Int

/-- Milliseconds per civil day. -/
def msPerDay : Int := 86400000

/-- `toZonedTime(new Date(t), tz)` of `date-fns-tz`, as the epoch value of
the shifted date (runtime zone UTC, see the file header). -/
def toZonedTime (z : Timezone) (t : Int) : Int :=
  t + z.offset t

/-- The calendar day number of an epoch value: what `format(d, 'yyyy-MM-dd')`
renders and what `isSameDay` compares (floor division; `/` on `Int` is
Euclidean division, which is floor division for the positive divisor). -/
def civilDay (t : Int) : Int :=
  t / msPerDay

/-- The error message of the `RangeError` thrown by the `Intl`-backed zone
lookup on an unknown zone identifier. -/
def invalidTzMsg (name : String) : String :=
  "RangeError: Invalid time zone specified: " ++ name

/-- `dates.add(...)` on a JS `Set` followed by `Array.from`: append the new
date unless already present (JS sets keep insertion order). -/
def insertUnique (d : Int) (ds : List Int) : List Int :=
  if d ∈ ds then ds else ds ++ [d]

/-- One iteration of the `currentSlots.forEach` loop of
`datesWithAvailableSlots` (page.tsx lines 111–118): skip booked slots,
otherwise record the zone-projected civil day of the slot's instant. -/
def availStep (z : Timezone) (ds : List Int) (s : Slot) : List Int :=
  if s.is_booked then ds
  else insertUnique (civilDay (toZonedTime z s.datetime_utc)) ds

/-- The loop of `datesWithAvailableSlots` run with a valid zone `z`. -/
def availFold (z : Timezone) (slots : List Slot) : List Int :=
  slots.foldl (availStep z) []

/-- `datesWithAvailableSlots` (page.tsx lines 107–121).  `userTimezone` empty
short-circuits to `[]` (line 109).  With an unknown zone identifier the first
`toZonedTime` call on an unbooked slot throws (modelled as `Except.error`);
if every slot is booked the loop never converts and finishes with the empty
set. -/
def datesWithAvailableSlots (db : String → Option Timezone) (userTimezone : String)
    (slots : List Slot) : Except String (List Int) :=
  if userTimezone = "" then Except.ok []
  else
    match db userTimezone with
    | some z => Except.ok (availFold z slots)
    | none =>
        if slots.all (fun s => s.is_booked) then Except.ok []
        else Except.error (invalidTzMsg userTimezone)

/-- The filter predicate of `filteredSlots` (page.tsx lines 130–134):
`isSameDay(toZonedTime(slot.datetime_utc, tz), selectedDate) && !slot.is_booked`,
where `selectedDate` is the epoch value `d` of the date picked in the
calendar. -/
def slotOnDay (z : Timezone) (d : Int) (s : Slot) : Bool :=
  decide (civilDay (toZonedTime z s.datetime_utc) = civilDay d) && !s.is_booked

/-- The sort comparator of `filteredSlots` (page.tsx lines 135–140):
`toZonedTime(a).getTime() - toZonedTime(b).getTime()`, i.e. order by the
zone-shifted timestamp. -/
def zle (z : Timezone) (a b : Slot) : Bool :=
  decide (toZonedTime z a.datetime_utc ≤ toZonedTime z b.datetime_utc)

/-- Insert into a sorted list, before the first element not below `x`:
the insertion step of a stable sort. -/
def sortInsert {α : Type} (le : α → α → Bool) (x : α) : List α → List α
  | [] => [x]
  | y :: ys => if le x y then x :: y :: ys else y :: sortInsert le x ys

/-- A stable sort.  `Array.prototype.sort` with a comparator is specified
stable (ECMA-262), and for a total preorder every stable sort produces the
same output, so insertion sort is an extensionally faithful model of the JS
sort call. -/
def stableSort {α : Type} (le : α → α → Bool) : List α → List α
  | [] => []
  | x :: xs => sortInsert le x (stableSort le xs)

/-- `filteredSlots` (page.tsx lines 125–144).  Returns `[]` when no date is
selected or the timezone is the empty string (line 126–128); otherwise
filters to the unbooked slots whose zone-projected civil day matches the
selected date and sorts them by the zone-shifted timestamp.  With an unknown
zone identifier the first `toZonedTime` call inside the filter throws, which
happens exactly when the slot list is non-empty. -/
def filteredSlots (db : String → Option Timezone) (userTimezone : String)
    (selectedDate : Option Int) (slots : List Slot) : Except String (List Slot) :=
  match selectedDate with
  | none => Except.ok []
  | some d =>
      if userTimezone = "" then Except.ok []
      else
        match db userTimezone with
        | some z => Except.ok (stableSort (zle z) (slots.filter (slotOnDay z d)))
        | none =>
            if slots.isEmpty then Except.ok []
            else Except.error (invalidTzMsg userTimezone)

/-- The JSON value obtained from `response.json()` on the `bookSlot` path
(`frontend/lib/api.ts`): `detail` is the body's `detail` field when present
(the empty string is a possible value and is falsy in JS), and `slotView` is
the same value read back as a `Slot` — the TS code casts the parsed body with
`const data: Slot = await response.json()` without any validation, so on the
success path whatever the body held is returned as the slot.  On the error
path `slotView` is never consulted. -/
structure BodyJson where
  detail : Option String
  slotView : Slot
  deriving DecidableEq, Repr

/-- The fetch response seen by `bookSlot` (`frontend/lib/api.ts` lines
34–48): `ok`/`statusText` from the transport, and `jsonBody` the outcome of
`response.json()` — `Except.error` is the rejection raised when the body is
not valid JSON, carrying the parser's message. -/
structure BookResponse where
  ok : Bool
  statusText : String
  jsonBody : Except String BodyJson

/-- JS `a || b` on the optional string `a`: the fallback is used when the
field is absent or holds a falsy value (the empty string). -/
def jsOrDefault (s : Option String) (fb : String) : String :=
  match s with
  | some v => if v = "" then fb else v
  | none => fb

/-- `bookSlot` (`frontend/lib/api.ts` lines 34–48) given the response of the
POST.  On a non-ok response it awaits `response.json()` first: if that parse
rejects, the parse failure itself propagates; if it parses, a new
`Error("Error booking slot: <statusText> - <detail or fallback>")` is thrown.
On an ok response the parsed body is returned as the slot (an unchecked
cast); a parse rejection on that path also propagates. -/
def bookSlot (resp : BookResponse) : Except String Slot :=
  if resp.ok then
    match resp.jsonBody with
    | Except.ok b => Except.ok b.slotView
    | Except.error e => Except.error e
  else
    match resp.jsonBody with
    | Except.ok b =>
        Except.error ("Error booking slot: " ++ resp.statusText ++ " - "
          ++ jsOrDefault b.detail "Unknown error")
    | Except.error e => Except.error e

/-- The component state touched by the submission handler (page.tsx lines
57–73).  The transient `isBookingLoading` toggle (set on entry, cleared in
`finally`) is omitted: it is `false` again whenever the handler returns and
no claim concerns it. -/
structure PageState where
  currentSlots : List Slot
  selectedSlot : Option Slot
  isBookingDialogOpen : Bool
  bookedByName : String
  bookedByEmail : String
  description : String
  deriving DecidableEq, Repr

/-- A `sonner` toast emitted by the handler. -/
inductive Toast where
  | success : String → Toast
  | error : String → Toast
  deriving DecidableEq, Repr

/-- Result of one run of the submission pipeline: the new component state,
the toasts emitted, and whether the remote `bookSlot` call was issued. -/
structure HandlerResult where
  state : PageState
  toasts : List Toast
  calledBookSlot : Bool
  deriving DecidableEq, Repr

/-- The per-slot update of the optimistic cache write (page.tsx lines
178–180): `s.id === selectedSlot.id ? { ...s, is_booked: true } : s`. -/
def bookUpdate (i : String) (s : Slot) : Slot :=
  if s.id = i then { s with is_booked := true } else s

/-- `handleBookSubmit` (page.tsx lines 156–196), with the awaited remote call
supplied as the `BookResponse` it resolved to.  No field validation happens
here: whenever a slot is selected the handler calls `bookSlot`.  On success
it maps `bookUpdate` over the cache and closes the dialog with a success
toast; on failure it leaves all state untouched and emits a failure toast
built from the thrown error's message. -/
def handleBookSubmit (st : PageState) (resp : BookResponse) : HandlerResult :=
  match st.selectedSlot with
  | none => ⟨st, [], false⟩
  | some sel =>
      match bookSlot resp with
      | Except.ok _ =>
          ⟨{ st with currentSlots := st.currentSlots.map (bookUpdate sel.id),
                     isBookingDialogOpen := false },
            [Toast.success "Slot booked successfully!"], true⟩
      | Except.error msg =>
          ⟨st, [Toast.error ("Booking failed: " ++ msg)], true⟩

/-- The submission pipeline as the browser runs it: the name and email inputs
carry the `required` attribute (page.tsx lines 342–348 and 352–359), so
constraint validation stops the `submit` event — and hence never runs
`handleBookSubmit` — when either is empty.  The description textarea has no
such attribute; nothing in the pipeline inspects it. -/
def submitForm (st : PageState) (resp : BookResponse) : HandlerResult :=
  if st.bookedByName = "" ∨ st.bookedByEmail = "" then ⟨st, [], false⟩
  else handleBookSubmit st resp

/-- Positions at which two caches differ: the number of entries mutated by an
update, compared pointwise. -/
def countChanges (old new : List Slot) : Nat :=
  (old.zip new).countP (fun p => decide (p.1 ≠ p.2))

/-!  ## Spec-modelled TimeConversion inverse

The page code only ever projects forward (`toZonedTime`, `formatInTimeZone`);
the spec's §4.1/§8 additionally describe recovering the instant from the
projection.  The definitions below model that missing direction from the
spec's words.
-/

/-- A civil date plus time of day in some zone: the civil day number together
with the milliseconds elapsed within that day. -/
structure CivilDateTime where
  day : Int
  msOfDay : Int
  deriving DecidableEq, Repr

/-- Modelled from the spec: `toCivilDate(instant, timezone)` of §4.1 extended
with the time-of-day component — the civil day and wall-clock offset within
the day that `toZonedTime` followed by `format` displays. -/
def toCivil (z : Timezone) (t : Int) : CivilDateTime :=
  ⟨civilDay (toZonedTime z t), toZonedTime z t % msPerDay⟩

/-- Modelled from the spec: the zone offset re-derived at an instant, the
quantity `formatInTimeZone(d, tz, 'z')` renders. -/
def zoneOffsetAt (z : Timezone) (t : Int) : Int :=
  z.offset t

/-- Modelled from the spec: recombining a civil date+time with a zone offset
into the UTC instant it denotes (§8 round-trip property). -/
def instantOfCivil (c : CivilDateTime) (off : Int) : Int :=
  c.day * msPerDay + c.msOfDay - off

/-!  ## Concrete zone data and inputs for witnesses

The IANA database is external to the repository; the entries below are
modelled from the spec's requirement of true IANA rules, restricted to the
zones and year the concrete scenarios use.
-/

/-- The fixed zone UTC. -/
def utcTz : Timezone := ⟨fun _ => 0⟩

/-- Modelled from the spec: IANA rules for `Asia/Tokyo` — UTC+9, no
daylight saving. -/
def tokyoTz : Timezone := ⟨fun _ => 32400000⟩

/-- Modelled from the spec: IANA rules for `America/New_York` during 2024 —
EDT (UTC−4) from the spring-forward instant 2024-03-10T07:00Z up to the
fall-back instant 2024-11-03T06:00Z, EST (UTC−5) otherwise.  (Outside 2024
the rule is truncated to EST; every concrete instant used below lies in
2024.) -/
def americaNewYork : Timezone :=
  ⟨fun t => if 1710054000000 ≤ t ∧ t < 1730613600000 then -14400000 else -18000000⟩

/-- Modelled from the spec: the zone-identifier lookup the `Intl`-backed
conversion performs, restricted to the identifiers the concrete scenarios
use; every other identifier is unknown and makes the conversion throw. -/
def zoneDb : String → Option Timezone := fun name =>
  if name = "UTC" then some utcTz
  else if name = "Asia/Tokyo" then some tokyoTz
  else if name = "America/New_York" then some americaNewYork
  else none

/-- Scenario B: a booked slot at 2024-05-01T02:00Z — 11:00 on May 1 in
Tokyo. -/
def slotTokyoBooked : Slot := ⟨"s1", 1714528800000, true⟩

/-- Scenario B: an unbooked slot at 2024-05-01T16:00Z — 01:00 on May 2 in
Tokyo: same UTC calendar day as `slotTokyoBooked`, different local day. -/
def slotTokyoOpen : Slot := ⟨"s2", 1714579200000, false⟩

/-- Scenario B slot list. -/
def demoSlotsB : List Slot := [slotTokyoBooked, slotTokyoOpen]

/-- An unbooked slot at 2024-11-03T05:59Z: 01:59 EDT, still before the
fall-back instant in New York. -/
def slotNyA : Slot := ⟨"a", 1730613540000, false⟩

/-- An unbooked slot at 2024-11-03T06:01Z: 01:01 EST, just after the
fall-back instant — later in UTC than `slotNyA` but earlier on the local
clock. -/
def slotNyB : Slot := ⟨"b", 1730613660000, false⟩

/-- The fall-back slot list: both slots project to the civil day 2024-11-03
in New York. -/
def demoSlotsNy : List Slot := [slotNyA, slotNyB]

/-- An unbooked slot at 1970-01-01T01:00Z, used by the invalid-zone
scenario. -/
def demoSlotU : Slot := ⟨"u1", 3600000, false⟩

/-- `demoSlotU` after a successful booking, as the server would echo it. -/
def demoSlotUBooked : Slot := ⟨"u1", 3600000, true⟩

/-- A filled-in form whose description is empty, with a slot selected. -/
def stC3 : PageState :=
  ⟨[demoSlotU], some demoSlotU, true, "Ada Lovelace", "ada@example.com", ""⟩

/-- A form whose name field is empty. -/
def stEmptyName : PageState :=
  ⟨[demoSlotU], some demoSlotU, true, "", "ada@example.com", "meeting"⟩

/-- A state with two distinctly-identified cached slots, the second one
selected for booking. -/
def stTwo : PageState :=
  ⟨[demoSlotU, slotTokyoOpen], some slotTokyoOpen, true,
    "Ada Lovelace", "ada@example.com", "meeting"⟩

/-- A successful booking response whose body echoes the booked slot. -/
def respOkDemo : BookResponse := ⟨true, "OK", Except.ok ⟨none, demoSlotUBooked⟩⟩

/-- Scenario D: status 409 with body carrying `detail` = "Already booked". -/
def resp409 : BookResponse :=
  ⟨false, "Conflict", Except.ok ⟨some "Already booked", demoSlotU⟩⟩

/-- A non-success response whose body is not valid JSON: `response.json()`
rejects with the parser's message. -/
def respBadJson : BookResponse :=
  ⟨false, "Internal Server Error", Except.error "Unexpected token I in JSON at position 0"⟩

/-!  ## Helper lemmas -/

theorem mem_insertUnique (d x : Int) (ds : List Int) :
    d ∈ insertUnique x ds ↔ d ∈ ds ∨ d = x := by
  unfold insertUnique
  by_cases h : x ∈ ds
  · simp only [if_pos h]
    constructor
    · exact Or.inl
    · rintro (hd | rfl)
      · exact hd
      · exact h
  · simp [if_neg h]

theorem mem_availFold_aux (z : Timezone) (d : Int) :
    ∀ (slots : List Slot) (acc : List Int),
      d ∈ slots.foldl (availStep z) acc ↔
        d ∈ acc ∨ ∃ s, s ∈ slots ∧ s.is_booked = false ∧
          civilDay (toZonedTime z s.datetime_utc) = d
  | [], acc => by simp
  | s :: ss, acc => by
      rw [List.foldl_cons, mem_availFold_aux z d ss]
      unfold availStep
      by_cases hb : s.is_booked
      · simp only [if_pos hb]
        constructor
        · rintro (h | h)
          · exact Or.inl h
          · exact Or.inr (by
              obtain ⟨u, hu, hub, hud⟩ := h
              exact ⟨u, List.mem_cons_of_mem s hu, hub, hud⟩)
        · rintro (h | ⟨u, hu, hub, hud⟩)
          · exact Or.inl h
          · rcases List.mem_cons.mp hu with rfl | hu'
            · rw [hb] at hub; cases hub
            · exact Or.inr ⟨u, hu', hub, hud⟩
      · simp only [if_neg hb, mem_insertUnique]
        constructor
        · rintro ((h | rfl) | h)
          · exact Or.inl h
          · exact Or.inr ⟨s, List.mem_cons_self s ss, Bool.not_eq_true _ ▸ by
              simpa using hb, rfl⟩
          · obtain ⟨u, hu, hub, hud⟩ := h
            exact Or.inr ⟨u, List.mem_cons_of_mem s hu, hub, hud⟩
        · rintro (h | ⟨u, hu, hub, hud⟩)
          · exact Or.inl (Or.inl h)
          · rcases List.mem_cons.mp hu with rfl | hu'
            · exact Or.inl (Or.inr hud.symm)
            · exact Or.inr ⟨u, hu', hub, hud⟩

theorem mem_availFold (z : Timezone) (d : Int) (slots : List Slot) :
    d ∈ availFold z slots ↔
      ∃ s, s ∈ slots ∧ s.is_booked = false ∧
        civilDay (toZonedTime z s.datetime_utc) = d := by
  unfold availFold
  rw [mem_availFold_aux]
  simp

theorem sortInsert_perm {α : Type} (le : α → α → Bool) (x : α) :
    ∀ l : List α, (sortInsert le x l).Perm (x :: l)
  | [] => List.Perm.refl _
  | y :: ys => by
      unfold sortInsert
      by_cases h : le x y
      · rw [if_pos h]
      · rw [if_neg h]
        exact ((sortInsert_perm le x ys).cons y).trans (List.Perm.swap x y ys)

theorem stableSort_perm {α : Type} (le : α → α → Bool) :
    ∀ l : List α, (stableSort le l).Perm l
  | [] => List.Perm.refl _
  | x :: xs => by
      unfold stableSort
      exact (sortInsert_perm le x (stableSort le xs)).trans
        ((stableSort_perm le xs).cons x)

theorem chain_sortInsert {α : Type} (le : α → α → Bool)
    (htot : ∀ a b, le a b = true ∨ le b a = true) (x : α) :
    ∀ l : List α, List.Chain' (fun a b => le a b = true) l →
      List.Chain' (fun a b => le a b = true) (sortInsert le x l)
  | [], _ => by simp [sortInsert]
  | y :: ys, h => by
      unfold sortInsert
      by_cases hxy : le x y
      · rw [if_pos hxy]
        exact List.chain'_cons.mpr ⟨hxy, h⟩
      · rw [if_neg hxy]
        have hyx : le y x = true := (htot x y).resolve_left (by simpa using hxy)
        have htail : List.Chain' (fun a b => le a b = true) (sortInsert le x ys) :=
          chain_sortInsert le htot x ys h.tail
        apply List.chain'_cons'.mpr
        refine ⟨?_, htail⟩
        intro w hw
        cases ys with
        | nil =>
            simp [sortInsert] at hw
            subst hw; exact hyx
        | cons z zs =>
            by_cases hxz : le x z
            · simp [sortInsert, if_pos hxz] at hw
              subst hw; exact hyx
            · simp [sortInsert, if_neg hxz] at hw
              subst hw
              exact (List.chain'_cons.mp h).1

theorem chain_stableSort {α : Type} (le : α → α → Bool)
    (htot : ∀ a b, le a b = true ∨ le b a = true) :
    ∀ l : List α, List.Chain' (fun a b => le a b = true) (stableSort le l)
  | [] => by simp [stableSort]
  | x :: xs => by
      unfold stableSort
      exact chain_sortInsert le htot x _ (chain_stableSort le htot xs)

theorem map_bookUpdate_no_match (i : String) :
    ∀ l : List Slot, (∀ s ∈ l, s.id ≠ i) → l.map (bookUpdate i) = l
  | [], _ => rfl
  | x :: xs, h => by
      rw [List.map_cons, map_bookUpdate_no_match i xs
        (fun s hs => h s (List.mem_cons_of_mem x hs))]
      unfold bookUpdate
      rw [if_neg (h x (List.mem_cons_self x xs))]

theorem countChanges_cons (x y : Slot) (xs ys : List Slot) :
    countChanges (x :: xs) (y :: ys) =
      countChanges xs ys + (if x = y then 0 else 1) := by
  unfold countChanges
  rw [List.zip_cons_cons, List.countP_cons]
  by_cases h : x = y
  · simp [h]
  · simp [h]

theorem countChanges_self : ∀ l : List Slot, countChanges l l = 0
  | [] => rfl
  | x :: xs => by rw [countChanges_cons, countChanges_self xs]; simp

theorem countChanges_map_bookUpdate (i : String) :
    ∀ l : List Slot, (l.map Slot.id).Nodup →
      countChanges l (l.map (bookUpdate i)) ≤ 1
  | [], _ => by simp [countChanges]
  | x :: xs, h => by
      rw [List.map_cons] at h
      obtain ⟨hx, hnd⟩ := List.nodup_cons.mp h
      rw [List.map_cons, countChanges_cons]
      by_cases hxi : x.id = i
      · have hxs : ∀ s ∈ xs, s.id ≠ i := by
          intro s hs hsi
          rw [← hxi] at hsi
          exact hx (hsi ▸ List.mem_map_of_mem Slot.id hs)
        rw [map_bookUpdate_no_match i xs hxs, countChanges_self xs]
        split <;> omega
      · have hxx : bookUpdate i x = x := by
          unfold bookUpdate; rw [if_neg hxi]
        rw [hxx, if_pos rfl]
        have := countChanges_map_bookUpdate i xs hnd
        omega

/-!  ## Claim theorems -/

/-- C1: for every slot list and every (valid, selected) timezone, the
availability computation succeeds with exactly the dates to which at least
one unbooked slot projects in that zone: a civil day is in the output iff
some slot with `is_booked = false` has that zone-projected local day; a date
whose slots are all booked never appears, and the day compared is the
zone-projected day `civilDay (toZonedTime z _)`, not the UTC calendar day. -/
theorem availability_dates_iff_unbooked (db : String → Option Timezone)
    (name : String) (z : Timezone) (slots : List Slot) (d : Int)
    (hz : db name = some z) (hne : name ≠ "") :
    datesWithAvailableSlots db name slots = Except.ok (availFold z slots) ∧
    (d ∈ availFold z slots ↔
      ∃ s, s ∈ slots ∧ s.is_booked = false ∧
        civilDay (toZonedTime z s.datetime_utc) = d) := by
  constructor
  · unfold datesWithAvailableSlots
    rw [if_neg hne, hz]
  · exact mem_availFold z d slots

/-- C1 witness: Scenario B in `Asia/Tokyo` — one booked and one unbooked
slot on the same UTC calendar day (day 19844 = 2024-05-01); the unbooked
slot's Tokyo-local day 19845 (2024-05-02) is reported available, while its
UTC day is 19844. -/
theorem availability_dates_iff_unbooked_app :
    datesWithAvailableSlots zoneDb "Asia/Tokyo" demoSlotsB =
      Except.ok (availFold tokyoTz demoSlotsB) ∧
    19845 ∈ availFold tokyoTz demoSlotsB ∧
    civilDay slotTokyoOpen.datetime_utc = 19844 := by
  have h := availability_dates_iff_unbooked zoneDb "Asia/Tokyo" tokyoTz
    demoSlotsB 19845 rfl (by decide)
  exact ⟨h.1, h.2.mpr ⟨slotTokyoOpen, by decide, by decide, by decide⟩, by decide⟩

/-- C2 counterexample: on the New York fall-back day 2024-11-03 the filter
output for the two unbooked slots is `[slotNyB, slotNyA]` although
`slotNyA`'s UTC instant is strictly smaller — the code sorts by the
zone-shifted timestamp, so the output is not sorted ascending by UTC
instant. -/
theorem slotFilter_not_utc_sorted_cex :
    filteredSlots zoneDb "America/New_York" (some 1730592000000) demoSlotsNy =
      Except.ok [slotNyB, slotNyA] ∧
    slotNyA.datetime_utc < slotNyB.datetime_utc ∧
    ¬ List.Chain' (fun a b : Slot => a.datetime_utc ≤ b.datetime_utc)
        [slotNyB, slotNyA] := by
  refine ⟨rfl, by decide, ?_⟩
  intro h
  exact absurd (List.chain'_cons.mp h).1 (by decide)

/-- C2 amended: for every slot list, selected date and valid timezone, the
filter returns exactly (as a permutation, hence including multiplicities)
the unbooked slots whose zone-projected civil day equals the selected day —
no booked slot appears — sorted ascending (weakly) by the zone-shifted
timestamp `toZonedTime`; on daylight-saving fall-back days this order can
differ from ascending UTC-instant order, and slots with equal shifted
timestamps keep their input order (stable sort), so the order is not
strict. -/
theorem slotFilter_zoned_sorted (db : String → Option Timezone) (name : String)
    (z : Timezone) (slots : List Slot) (d : Int)
    (hz : db name = some z) (hne : name ≠ "") :
    filteredSlots db name (some d) slots =
      Except.ok (stableSort (zle z) (slots.filter (slotOnDay z d))) ∧
    (stableSort (zle z) (slots.filter (slotOnDay z d))).Perm
      (slots.filter (slotOnDay z d)) ∧
    (∀ s ∈ stableSort (zle z) (slots.filter (slotOnDay z d)),
      s.is_booked = false ∧ civilDay (toZonedTime z s.datetime_utc) = civilDay d) ∧
    List.Chain'
      (fun a b => toZonedTime z a.datetime_utc ≤ toZonedTime z b.datetime_utc)
      (stableSort (zle z) (slots.filter (slotOnDay z d))) := by
  refine ⟨?_, stableSort_perm _ _, ?_, ?_⟩
  · simp only [filteredSlots]
    rw [if_neg hne, hz]
  · intro s hs
    have hs' : s ∈ slots.filter (slotOnDay z d) :=
      (stableSort_perm (zle z) (slots.filter (slotOnDay z d))).mem_iff.mp hs
    have hp := (List.mem_filter.mp hs').2
    unfold slotOnDay at hp
    rw [Bool.and_eq_true] at hp
    exact ⟨by simpa using hp.2, of_decide_eq_true hp.1⟩
  · have htot : ∀ a b, zle z a b = true ∨ zle z b a = true := by
      intro a b
      unfold zle
      rcases le_total (toZonedTime z a.datetime_utc) (toZonedTime z b.datetime_utc)
        with h | h
      · exact Or.inl (decide_eq_true h)
      · exact Or.inr (decide_eq_true h)
    exact (chain_stableSort (zle z) htot (slots.filter (slotOnDay z d))).imp
      (fun a b hab => of_decide_eq_true hab)

/-- C2 witness: the amended statement instantiated on the New York
fall-back scenario. -/
theorem slotFilter_zoned_sorted_app :
    filteredSlots zoneDb "America/New_York" (some 1730592000000) demoSlotsNy =
      Except.ok (stableSort (zle americaNewYork)
        (demoSlotsNy.filter (slotOnDay americaNewYork 1730592000000))) ∧
    (stableSort (zle americaNewYork)
        (demoSlotsNy.filter (slotOnDay americaNewYork 1730592000000))).Perm
      (demoSlotsNy.filter (slotOnDay americaNewYork 1730592000000)) ∧
    (∀ s ∈ stableSort (zle americaNewYork)
        (demoSlotsNy.filter (slotOnDay americaNewYork 1730592000000)),
      s.is_booked = false ∧
      civilDay (toZonedTime americaNewYork s.datetime_utc) =
        civilDay 1730592000000) ∧
    List.Chain'
      (fun a b => toZonedTime americaNewYork a.datetime_utc ≤
        toZonedTime americaNewYork b.datetime_utc)
      (stableSort (zle americaNewYork)
        (demoSlotsNy.filter (slotOnDay americaNewYork 1730592000000))) :=
  slotFilter_zoned_sorted zoneDb "America/New_York" americaNewYork demoSlotsNy
    1730592000000 rfl (by decide)

/-- C3 counterexample: a submission whose description is the empty string is
not rejected — the pipeline calls `bookSlot` and the booking succeeds; no
`ValidationError` exists anywhere in the flow. -/
theorem submit_empty_description_calls_api_cex :
    stC3.description = "" ∧
    (submitForm stC3 respOkDemo).calledBookSlot = true ∧
    (submitForm stC3 respOkDemo).toasts =
      [Toast.success "Slot booked successfully!"] :=
  ⟨rfl, rfl, rfl⟩

/-- C3 amended: a submission with empty name or empty email never reaches
`bookSlot` and leaves the whole state (in particular the slot cache)
unchanged — but only because the `required` attributes on those two inputs
stop the browser's submit event; the handler itself performs no validation
and produces no `ValidationError` value, and an empty description is not
validated at all: such a submission proceeds and calls `bookSlot`. -/
theorem submit_blocked_on_empty_name_email (st : PageState) (resp : BookResponse)
    (h : st.bookedByName = "" ∨ st.bookedByEmail = "") :
    submitForm st resp = ⟨st, [], false⟩ := by
  unfold submitForm
  rw [if_pos h]

/-- C3 witness: the empty-name state is returned unchanged with no toasts
and no `bookSlot` call. -/
theorem submit_blocked_on_empty_name_email_app :
    submitForm stEmptyName respOkDemo = ⟨stEmptyName, [], false⟩ :=
  submit_blocked_on_empty_name_email stEmptyName respOkDemo (Or.inl rfl)

/-- C4: when the remote `bookSlot` call succeeds, the confirmation dialog is
closed and, in a cache with distinct slot ids, every entry whose id equals
the selected slot's id is marked booked, every entry with a different id is
left unchanged at its position, and at most one cache entry is mutated. -/
theorem booking_success_updates_single_slot (st : PageState)
    (resp : BookResponse) (sel r : Slot)
    (hsel : st.selectedSlot = some sel)
    (hnd : (st.currentSlots.map Slot.id).Nodup)
    (hok : bookSlot resp = Except.ok r) :
    (handleBookSubmit st resp).state.isBookingDialogOpen = false ∧
    (handleBookSubmit st resp).state.currentSlots.length =
      st.currentSlots.length ∧
    (∀ i (h1 : i < st.currentSlots.length)
        (h2 : i < (handleBookSubmit st resp).state.currentSlots.length),
      ((st.currentSlots.get ⟨i, h1⟩).id = sel.id →
        ((handleBookSubmit st resp).state.currentSlots.get ⟨i, h2⟩).is_booked
          = true) ∧
      ((st.currentSlots.get ⟨i, h1⟩).id ≠ sel.id →
        (handleBookSubmit st resp).state.currentSlots.get ⟨i, h2⟩ =
          st.currentSlots.get ⟨i, h1⟩)) ∧
    countChanges st.currentSlots
      (handleBookSubmit st resp).state.currentSlots ≤ 1 := by
  have hres : handleBookSubmit st resp =
      ⟨{ st with currentSlots := st.currentSlots.map (bookUpdate sel.id),
                 isBookingDialogOpen := false },
        [Toast.success "Slot booked successfully!"], true⟩ := by
    unfold handleBookSubmit
    rw [hsel, hok]
  rw [hres]
  refine ⟨rfl, by simp, ?_, ?_⟩
  · intro i h1 h2
    have hmap : (st.currentSlots.map (bookUpdate sel.id)).get
        ⟨i, by simpa using h2⟩ = bookUpdate sel.id (st.currentSlots.get ⟨i, h1⟩) := by
      simp [List.get_eq_getElem, List.getElem_map]
    constructor
    · intro hid
      show (List.get (st.currentSlots.map (bookUpdate sel.id)) _).is_booked = true
      rw [hmap]
      unfold bookUpdate
      rw [if_pos hid]
    · intro hid
      show List.get (st.currentSlots.map (bookUpdate sel.id)) _ = _
      rw [hmap]
      unfold bookUpdate
      rw [if_neg hid]
  · exact countChanges_map_bookUpdate sel.id st.currentSlots hnd

/-- C4 witness: booking the second of two distinctly-identified cached slots
closes the dialog, keeps the cache length, and mutates at most one entry. -/
theorem booking_success_updates_single_slot_app :
    (handleBookSubmit stTwo respOkDemo).state.isBookingDialogOpen = false ∧
    (handleBookSubmit stTwo respOkDemo).state.currentSlots.length =
      stTwo.currentSlots.length ∧
    countChanges stTwo.currentSlots
      (handleBookSubmit stTwo respOkDemo).state.currentSlots ≤ 1 := by
  have h := booking_success_updates_single_slot stTwo respOkDemo slotTokyoOpen
    demoSlotUBooked rfl (by decide) rfl
  exact ⟨h.1, h.2.1, h.2.2.2⟩

/-- C5: when the remote `bookSlot` call fails with a non-success response
whose body parses and carries a non-empty `detail` (e.g. a 409 with
"Already booked"), the handler ends in the failed outcome: the entire
component state — in particular the slot cache and the open dialog — is
returned exactly unchanged, and the single failure toast's message ends with
the server-supplied detail string. -/
theorem booking_failure_keeps_cache_and_reports_detail (st : PageState)
    (resp : BookResponse) (sel : Slot) (b : BodyJson) (d : String)
    (hsel : st.selectedSlot = some sel) (hok : resp.ok = false)
    (hb : resp.jsonBody = Except.ok b) (hd : b.detail = some d) (hne : d ≠ "") :
    handleBookSubmit st resp =
      ⟨st, [Toast.error ("Booking failed: " ++
        ("Error booking slot: " ++ resp.statusText ++ " - " ++ d))], true⟩ ∧
    (∃ p : String,
      "Booking failed: " ++ ("Error booking slot: " ++ resp.statusText
        ++ " - " ++ d) = p ++ d) := by
  have hbs : bookSlot resp = Except.error
      ("Error booking slot: " ++ resp.statusText ++ " - " ++ d) := by
    unfold bookSlot
    rw [hok]
    simp only [Bool.false_eq_true, if_false, hb, hd]
    simp only [jsOrDefault]
    rw [if_neg hne]
  constructor
  · unfold handleBookSubmit
    rw [hsel, hbs]
  · exact ⟨"Booking failed: " ++ ("Error booking slot: " ++ resp.statusText
      ++ " - "), by rw [← String.append_assoc]⟩

/-- C5 witness: Scenario D — status 409 ("Conflict") with body detail
"Already booked" leaves the state untouched and surfaces the detail. -/
theorem booking_failure_keeps_cache_and_reports_detail_app :
    handleBookSubmit stTwo resp409 =
      ⟨stTwo, [Toast.error ("Booking failed: " ++
        ("Error booking slot: " ++ resp409.statusText ++ " - "
          ++ "Already booked"))], true⟩ ∧
    (∃ p : String,
      "Booking failed: " ++ ("Error booking slot: " ++ resp409.statusText
        ++ " - " ++ "Already booked") = p ++ "Already booked") :=
  booking_failure_keeps_cache_and_reports_detail stTwo resp409 slotTokyoOpen
    ⟨some "Already booked", demoSlotU⟩ "Already booked" rfl rfl rfl rfl
    (by decide)

/-- C6 counterexample: with the unknown zone identifier "Mars/Phobos" and an
unbooked slot in the cache, both the availability computation and the filter
propagate the conversion's `RangeError` instead of falling back to UTC —
they produce no result at all, while the same inputs under "UTC" do. -/
theorem invalid_timezone_no_utc_fallback_cex :
    datesWithAvailableSlots zoneDb "Mars/Phobos" [demoSlotU] =
      Except.error (invalidTzMsg "Mars/Phobos") ∧
    filteredSlots zoneDb "Mars/Phobos" (some 0) [demoSlotU] =
      Except.error (invalidTzMsg "Mars/Phobos") ∧
    datesWithAvailableSlots zoneDb "UTC" [demoSlotU] = Except.ok [0] :=
  ⟨rfl, rfl, rfl⟩

/-- C6 amended: an invalid or unknown timezone identifier makes the
underlying conversion throw, and the callers do not catch the error or fall
back to UTC: whenever the identifier is non-empty, unknown to the zone
database and the slot list contains an unbooked slot, the availability
computation propagates the error, as does the filter for any selected date
(for any non-empty slot list).  Only the empty identifier — the
pre-detection state — short-circuits to an empty result. -/
theorem invalid_timezone_raises (db : String → Option Timezone) (name : String)
    (slots : List Slot) (d : Int)
    (hz : db name = none) (hne : name ≠ "")
    (hun : ∃ s, s ∈ slots ∧ s.is_booked = false) :
    datesWithAvailableSlots db name slots = Except.error (invalidTzMsg name) ∧
    (slots ≠ [] →
      filteredSlots db name (some d) slots = Except.error (invalidTzMsg name)) := by
  constructor
  · unfold datesWithAvailableSlots
    rw [if_neg hne, hz]
    have hall : slots.all (fun s => s.is_booked) = false := by
      obtain ⟨s, hs, hbf⟩ := hun
      by_cases h : slots.all (fun s => s.is_booked)
      · have := List.all_eq_true.mp h s hs
        rw [hbf] at this
        cases this
      · simpa using h
    rw [hall]
    simp
  · intro hnil
    simp only [filteredSlots]
    rw [if_neg hne, hz]
    have hemp : slots.isEmpty = false := by
      cases slots with
      | nil => exact absurd rfl hnil
      | cons x xs => rfl
    rw [hemp]
    simp

/-- C6 witness: the amended statement at the concrete unknown identifier. -/
theorem invalid_timezone_raises_app :
    datesWithAvailableSlots zoneDb "Mars/Phobos" demoSlotsNy =
      Except.error (invalidTzMsg "Mars/Phobos") ∧
    filteredSlots zoneDb "Mars/Phobos" (some 1730592000000) demoSlotsNy =
      Except.error (invalidTzMsg "Mars/Phobos") := by
  have h := invalid_timezone_raises zoneDb "Mars/Phobos" demoSlotsNy
    1730592000000 rfl (by decide) ⟨slotNyA, by decide, rfl⟩
  exact ⟨h.1, h.2 (by decide)⟩

/-- C7: projecting an instant to its civil date and time of day in any zone
(any offset rule, so in particular across daylight-saving transitions) and
recombining with the zone offset re-derived at that instant reproduces the
original instant exactly. -/
theorem timeConversion_round_trip (z : Timezone) (t : Int) :
    instantOfCivil (toCivil z t) (zoneOffsetAt z t) = t := by
  simp only [instantOfCivil, toCivil, zoneOffsetAt, civilDay, toZonedTime, msPerDay]
  omega

/-- C8: the post-success cache update is exactly a map of the per-slot
update over every cached entry: entries whose id equals the selected id
become booked while keeping their id and UTC instant, entries with any other
id are returned unchanged, and when no entry carries the selected id the
mapped cache is pointwise identical to the old one. -/
theorem booking_success_cache_map (st : PageState) (resp : BookResponse)
    (sel r : Slot) (hsel : st.selectedSlot = some sel)
    (hok : bookSlot resp = Except.ok r) :
    (handleBookSubmit st resp).state.currentSlots =
      st.currentSlots.map (bookUpdate sel.id) ∧
    (∀ s : Slot, s.id = sel.id →
      (bookUpdate sel.id s).is_booked = true ∧
      (bookUpdate sel.id s).id = s.id ∧
      (bookUpdate sel.id s).datetime_utc = s.datetime_utc) ∧
    (∀ s : Slot, s.id ≠ sel.id → bookUpdate sel.id s = s) ∧
    ((∀ s ∈ st.currentSlots, s.id ≠ sel.id) →
      st.currentSlots.map (bookUpdate sel.id) = st.currentSlots) := by
  refine ⟨?_, ?_, ?_, map_bookUpdate_no_match sel.id st.currentSlots⟩
  · unfold handleBookSubmit
    rw [hsel, hok]
  · intro s hid
    unfold bookUpdate
    rw [if_pos hid]
    exact ⟨rfl, rfl, rfl⟩
  · intro s hid
    unfold bookUpdate
    rw [if_neg hid]

/-- C8 witness: the concrete success run maps the update over the cache and
the selected slot's updated entry is booked. -/
theorem booking_success_cache_map_app :
    (handleBookSubmit stTwo respOkDemo).state.currentSlots =
      stTwo.currentSlots.map (bookUpdate slotTokyoOpen.id) ∧
    (bookUpdate slotTokyoOpen.id slotTokyoOpen).is_booked = true := by
  have h := booking_success_cache_map stTwo respOkDemo slotTokyoOpen
    demoSlotUBooked rfl rfl
  exact ⟨h.1, (h.2.1 slotTokyoOpen rfl).1⟩

/-- C9: while the selected timezone is still the empty string (before
detection completes), the availability computation and the slot filter both
return the empty list, for every zone database, every slot list and every
(possibly absent) selected date. -/
theorem empty_timezone_yields_empty (db : String → Option Timezone)
    (slots : List Slot) (d : Option Int) :
    datesWithAvailableSlots db "" slots = Except.ok [] ∧
    filteredSlots db "" d slots = Except.ok [] := by
  constructor
  · unfold datesWithAvailableSlots
    rw [if_pos rfl]
  · cases d with
    | none => rfl
    | some x =>
        simp [filteredSlots]

/-- C10: on a non-success response whose body is not valid JSON, the error
thrown by `bookSlot` is the JSON parse failure itself, verbatim — not the
constructed booking error — and the outcome is independent of the response's
status text, so neither the status text nor any server detail is embedded in
the surfaced message. -/
theorem bookSlot_parse_error_propagates (resp : BookResponse) (e : String)
    (hok : resp.ok = false) (hb : resp.jsonBody = Except.error e) :
    bookSlot resp = Except.error e ∧
    (∀ x : String, bookSlot ⟨resp.ok, x, resp.jsonBody⟩ = Except.error e) := by
  constructor
  · unfold bookSlot
    rw [hok]
    simp only [Bool.false_eq_true, if_false, hb]
  · intro x
    unfold bookSlot
    simp only [hok, hb, Bool.false_eq_true, if_false]

/-- C10 witness: a 500 response with an unparseable body throws the parse
failure, with the same outcome under a different status text. -/
theorem bookSlot_parse_error_propagates_app :
    bookSlot respBadJson =
      Except.error "Unexpected token I in JSON at position 0" ∧
    bookSlot ⟨respBadJson.ok, "Teapot", respBadJson.jsonBody⟩ =
      Except.error "Unexpected token I in JSON at position 0" := by
  have h := bookSlot_parse_error_propagates respBadJson
    "Unexpected token I in JSON at position 0" rfl rfl
  exact ⟨h.1, h.2 "Teapot"⟩
